import Mathlib

/-!
Verification development for the bedrockDemo repository: a shallow embedding
of the conversation orchestrator (`converse_model.py`) and of the screen/input
automation tool (`tools/computer.py`), together with theorems settling the
frozen claims about them.

Modelling conventions:
* Python values carried in payloads are modelled by `PyVal`; Python dicts by
  association lists (`List (String × PyVal)`), with Python key semantics
  (assignment to a nested missing key raises `KeyError`).
* Python exceptions are modelled by `PyExc` (class name, message); fallible
  code returns `Except PyExc _`.
* Machine floats used in coordinate scaling are modelled by exact rationals;
  Python `round` (round-half-to-even) is `pyRound`.
* External collaborators (the Bedrock endpoint, the shell primitive, the
  screenshot file system) are environments passed in as function parameters.
-/

/-- A Python value appearing in tool payloads. -/
inductive PyVal where
  | str (s : String)
  | int (n : ℤ)
  | dict (entries : List (String × PyVal))
  | bytes (b : List ℕ)

/-- A Python exception: its class name and its message. -/
structure PyExc where
  name : String
  msg : String
deriving DecidableEq

/-! ### Tool dispatcher (`ToolUseDemo._invoke_tool` in `converse_model.py`) -/

/-- The payload of a tool-use request: `{toolUseId, name, input}`. -/
structure ToolPayload where
  toolUseId : String
  name : String
  input : PyVal

/-- The behaviour of one call to a tool module's `invoke` function: it either
returns a value or raises an exception of some class. -/
inductive InvokeBehavior where
  | returns (v : PyVal)
  | raises (exc : String) (msg : String)

/-- The environment the dispatcher resolves tools in: whether the module
`tools.<name>` imports, whether it has an `invoke` attribute, and what its
`invoke` does on a given input. -/
structure ToolsEnv where
  moduleExists : String → Bool
  hasInvoke : String → Bool
  invoke : String → PyVal → InvokeBehavior

/-- The structured error payload built by `_invoke_tool`. -/
def errorPayload (msg : String) : PyVal :=
  .dict [("error", .str "true"), ("message", .str msg)]

/-- `_invoke_tool`: message for a tool that could not be imported. -/
def notFoundMessage (name : String) : String :=
  "Tool " ++ name ++ " not found in the tools directory."

/-- `_invoke_tool`: message for a tool module without an `invoke` function. -/
def noInvokeMessage (name : String) : String :=
  "Tool " ++ name ++ " does not have an invoke method."

/-- The value `_invoke_tool` returns: `{toolUseId, content}`. -/
structure ToolResponse where
  toolUseId : String
  content : PyVal

/-- `ToolUseDemo._invoke_tool`: dynamically imports `tools.<name>`, fetches its
`invoke` attribute and calls it.  The surrounding `try` has exactly two
handlers, `except ModuleNotFoundError` and `except AttributeError`; both also
catch exceptions of those classes raised inside the tool's own `invoke` call.
Any other exception raised by the tool propagates out. -/
def invoke_tool (tenv : ToolsEnv) (pl : ToolPayload) : Except PyExc ToolResponse :=
  if tenv.moduleExists pl.name = false then
    .ok ⟨pl.toolUseId, errorPayload (notFoundMessage pl.name)⟩
  else if tenv.hasInvoke pl.name = false then
    .ok ⟨pl.toolUseId, errorPayload (noInvokeMessage pl.name)⟩
  else
    match tenv.invoke pl.name pl.input with
    | .returns v => .ok ⟨pl.toolUseId, v⟩
    | .raises exc msg =>
      if exc = "ModuleNotFoundError" then
        .ok ⟨pl.toolUseId, errorPayload (notFoundMessage pl.name)⟩
      else if exc = "AttributeError" then
        .ok ⟨pl.toolUseId, errorPayload (noInvokeMessage pl.name)⟩
      else
        .error ⟨exc, msg⟩

/-! ### Conversation orchestrator (`converse_model.py`) -/

/-- The role of a conversation turn. -/
inductive Role where
  | user
  | assistant
deriving DecidableEq

/-- A content block of a turn: free text, a tool-use request, or a tool
result (as synthesized by `_handle_tool_use`, whose `content` field is a
singleton list wrapping the tool's response content). -/
inductive ContentBlock where
  | text (s : String)
  | toolUse (id : String) (name : String) (input : PyVal)
  | toolResult (id : String) (content : List PyVal)

/-- One message of the conversation transcript. -/
structure Turn where
  role : Role
  content : List ContentBlock

/-- The `stopReason` field of a Bedrock converse response. -/
inductive StopReason where
  | toolUse
  | endTurn
  | other (s : String)

/-- The part of a Bedrock converse response the orchestrator reads:
`response["stopReason"]` and `response["output"]["message"]`. -/
structure ModelResponse where
  stopReason : StopReason
  message : Turn

/-- The orchestrator's environment: the model endpoint (a black box mapping a
conversation to a response) and the tool-resolution environment. -/
structure OrchEnv where
  endpoint : List Turn → ModelResponse
  tools : ToolsEnv

/-- An observable output of the orchestrator: one `output.model_response`
call surfacing text to the user. -/
inductive Event where
  | modelText (s : String)

/-- How one `_process_model_response` run ended: normal return, the
recursion-exhausted fatal `exit(1)`, or an uncaught Python exception. -/
inductive Outcome where
  | normal
  | recursionExhausted
  | crashed (e : PyExc)

/-- The state after a `_process_model_response` run: the transcript, the
surfaced outputs, and how the run ended. -/
structure ProcResult where
  conv : List Turn
  events : List Event
  outcome : Outcome

/-- The per-round loop body of `_handle_tool_use`: walk the model message's
content blocks in order; surface each text block; dispatch each tool-use
request through `invoke_tool` and collect one tool-result block per request,
in order, keyed by the id the dispatcher echoes back.  An exception raised by
the dispatcher aborts the walk (it is uncaught in `_handle_tool_use`). -/
def collectRound (tenv : ToolsEnv) : List ContentBlock →
    Except (PyExc × List Event) (List ContentBlock × List Event)
  | [] => .ok ([], [])
  | .text s :: rest =>
    match collectRound tenv rest with
    | .ok (rs, es) => .ok (rs, .modelText s :: es)
    | .error (e, es) => .error (e, .modelText s :: es)
  | .toolUse id name input :: rest =>
    match invoke_tool tenv ⟨id, name, input⟩ with
    | .ok r =>
      match collectRound tenv rest with
      | .ok (rs, es) => .ok (.toolResult r.toolUseId [r.content] :: rs, es)
      | .error pe => .error pe
    | .error e => .error (e, [])
  | .toolResult _ _ :: rest => collectRound tenv rest

/-- `_process_model_response` and `_handle_tool_use`, fused into one function
on an explicit fuel (the recursion budget, already truncated to ℕ).
* fuel `0` (budget `<= 0`): `exit(1)` before anything else — in particular the
  model message is NOT appended in this case.
* otherwise the model message is appended; on `tool_use` the round's tool
  results are synthesized into one new user turn and the loop recurses on the
  endpoint's next response with fuel one less; on `end_turn` the first content
  block's text is surfaced (`message["content"][0]["text"]`, which raises if
  absent); on any other stop reason the function just returns. -/
def processGo (env : OrchEnv) : ModelResponse → List Turn → ℕ → ProcResult
  | _, conv, 0 => ⟨conv, [], .recursionExhausted⟩
  | resp, conv, n + 1 =>
    match resp.stopReason with
    | .toolUse =>
      match collectRound env.tools resp.message.content with
      | .error (e, es) => ⟨conv ++ [resp.message], es, .crashed e⟩
      | .ok (results, es) =>
        let conv2 := conv ++ [resp.message] ++ [Turn.mk .user results]
        let r := processGo env (env.endpoint conv2) conv2 n
        ⟨r.conv, es ++ r.events, r.outcome⟩
    | .endTurn =>
      match resp.message.content.head? with
      | some (.text s) => ⟨conv ++ [resp.message], [.modelText s], .normal⟩
      | some _ => ⟨conv ++ [resp.message], [], .crashed ⟨"KeyError", "text"⟩⟩
      | none => ⟨conv ++ [resp.message], [], .crashed ⟨"IndexError", "list index out of range"⟩⟩
    | .other _ => ⟨conv ++ [resp.message], [], .normal⟩

/-- `ToolUseDemo._process_model_response`, with the Python integer budget.
`max_recursion <= 0` corresponds to `budget.toNat = 0`, and the recursive call
at `max_recursion - 1` to fuel `budget.toNat - 1`. -/
def process_model_response (env : OrchEnv) (resp : ModelResponse)
    (conv : List Turn) (budget : ℤ) : ProcResult :=
  processGo env resp conv budget.toNat

/-- The ids of the tool-use request blocks of a message, in order. -/
def requestIds (l : List ContentBlock) : List String :=
  l.filterMap fun b => match b with
    | .toolUse id _ _ => some id
    | _ => none

/-- The ids of the tool-result blocks of a message, in order. -/
def resultIds (l : List ContentBlock) : List String :=
  l.filterMap fun b => match b with
    | .toolResult id _ => some id
    | _ => none

/-! ### Coordinate scaling (`ComputerTool.scale_coordinates` in `tools/computer.py`) -/

/-- A target resolution (`Resolution` TypedDict in the source). -/
structure Resolution where
  width : ℕ
  height : ℕ
deriving DecidableEq

/-- `MAX_SCALING_TARGETS`, in dict insertion order: XGA, WXGA, FWXGA. -/
def MAX_SCALING_TARGETS : List Resolution :=
  [⟨1024, 768⟩, ⟨1280, 800⟩, ⟨1366, 768⟩]

/-- The `ScalingSource` enumeration. -/
inductive ScalingSource where
  | computer
  | api
deriving DecidableEq

/-- The physical display geometry captured at tool construction. -/
structure Geometry where
  width : ℕ
  height : ℕ
deriving DecidableEq

/-- `ComputerTool._scaling_enabled` (a class attribute, always `True`). -/
def scalingEnabled : Bool := true

/-- `ratio = self.width / self.height` (float division, as an exact rational). -/
def aspectRatio (g : Geometry) : ℚ :=
  (g.width : ℚ) / (g.height : ℚ)

/-- The preset-selection loop of `scale_coordinates`: walk the targets in
order; at the FIRST target whose aspect ratio is within `0.02` of the physical
ratio, stop the walk (`break`), selecting it only if its width is also smaller
than the physical width. -/
def selectTargetGo (r : ℚ) (W : ℕ) : List Resolution → Option Resolution
  | [] => none
  | d :: rest =>
    if |(d.width : ℚ) / (d.height : ℚ) - r| < 1 / 50 then
      (if d.width < W then some d else none)
    else selectTargetGo r W rest

/-- The target preset `scale_coordinates` scales against for a geometry. -/
def selectTarget (g : Geometry) : Option Resolution :=
  selectTargetGo (aspectRatio g) g.width MAX_SCALING_TARGETS

/-- Python 3 `round` on a rational: round half to even. -/
def pyRound (q : ℚ) : ℤ :=
  if q - ⌊q⌋ < 1 / 2 then ⌊q⌋
  else if 1 / 2 < q - ⌊q⌋ then ⌊q⌋ + 1
  else if ⌊q⌋ % 2 = 0 then ⌊q⌋ else ⌊q⌋ + 1

/-- `ComputerTool.scale_coordinates`.  With scaling disabled or no target
selected, coordinates pass through unchanged.  With a target: `api`-sourced
coordinates are bounds-checked against the physical size (raising `ToolError`
beyond it) and scaled up by dividing by the scaling factors; `computer`-sourced
coordinates are scaled down by multiplying, with no bounds check. -/
def scale_coordinates (g : Geometry) (source : ScalingSource) (x y : ℤ) :
    Except PyExc (ℤ × ℤ) :=
  if scalingEnabled = false then .ok (x, y)
  else
    match selectTarget g with
    | none => .ok (x, y)
    | some d =>
      let xFactor : ℚ := (d.width : ℚ) / (g.width : ℚ)
      let yFactor : ℚ := (d.height : ℚ) / (g.height : ℚ)
      match source with
      | .api =>
        if (g.width : ℤ) < x ∨ (g.height : ℤ) < y then
          .error ⟨"ToolError", "Coordinates are out of bounds"⟩
        else
          .ok (pyRound ((x : ℚ) / xFactor), pyRound ((y : ℚ) / yFactor))
      | .computer =>
        .ok (pyRound ((x : ℚ) * xFactor), pyRound ((y : ℚ) * yFactor))

/-- The spec's wording of the selection rule, as a second definition for the
refinement claim: "the first preset whose aspect ratio matches the physical
aspect ratio within a fixed tolerance (0.02) AND whose width is smaller than
the physical width". -/
def selectTargetSpec (g : Geometry) : Option Resolution :=
  MAX_SCALING_TARGETS.find? fun d =>
    decide (|(d.width : ℚ) / (d.height : ℚ) - aspectRatio g| < 1 / 50) &&
    decide (d.width < g.width)

/-! ### Screen/input automation tool (`ComputerTool.__call__` and friends) -/

/-- `chunks(s, chunk_size)` — loop body, structurally recursive on a fuel that
starts at the string length (each step with a positive chunk size strictly
shortens the string, so that fuel suffices). -/
def chunksGo : ℕ → List Char → ℕ → List (List Char)
  | 0, _, _ => []
  | fuel + 1, s, k =>
    if s = [] ∨ k = 0 then []
    else s.take k :: chunksGo fuel (s.drop k) k

/-- `chunks(s, chunk_size)`: the slices `s[0:k], s[k:2k], …` (empty for the
empty string, matching `range(0, 0, k)`). -/
def chunks (s : List Char) (k : ℕ) : List (List Char) :=
  chunksGo s.length s k

/-- `TYPING_GROUP_SIZE`. -/
def TYPING_GROUP_SIZE : ℕ := 50

/-- A shell command issued by the tool through `run` (`cliclick`,
`screencapture`, `convert`), identified by its role and arguments. -/
inductive Cmd where
  | typeChunk (chunk : List Char)
  | keyPress (c : String)
  | mouseMove (x y : ℤ)
  | drag (x y : ℤ)
  | click (arg : String)
  | cursorPos
  | screencapture
  | convertResize (x y : ℤ)
deriving DecidableEq

/-- An observable side effect of the tool: one `run` shell invocation, or the
settle delay `asyncio.sleep` before an automatic screenshot. -/
inductive CEvent where
  | run (c : Cmd)
  | sleep
deriving DecidableEq

/-- `ToolResult` from `dependency/base.py` (not under `src/`).  Modelled from
the spec: "Contract: `execute(action, text?, coordinate?) ->
{textOutput, textError, imageBytes?}`" — a record of optional output text,
error text, and image bytes, all defaulting to absent. -/
structure ToolResult where
  output : Option String := none
  error : Option String := none
  image_bytes : Option (List ℕ) := none

/-- The automation tool's environment: what each shell command prints on
stdout/stderr, the bytes read back from the screenshot file, whether that file
exists after the capture, the `cliclick` key mapping
(`key_mapping.get(text, text)`), and the parse of the cursor-position
output. -/
structure CEnv where
  stdout : Cmd → String
  stderr : Cmd → String
  image : List ℕ
  screenshotExists : Bool
  keyMap : List Char → String
  cursor : Option (ℤ × ℤ)

/-- The scaled-down display size reported for screenshot resizing:
`scale_coordinates(COMPUTER, self.width, self.height)` (this source never
raises, so the error arm is unreachable). -/
def displayScaled (g : Geometry) : ℤ × ℤ :=
  match scale_coordinates g .computer g.width g.height with
  | .ok p => p
  | .error _ => ((g.width : ℤ), (g.height : ℤ))

/-- The shell commands `ComputerTool.screenshot` issues: the `screencapture`,
then (scaling enabled) the `convert` resize to the scaled-down size. -/
def screenshotTrace (g : Geometry) : List CEvent :=
  CEvent.run .screencapture ::
    (if scalingEnabled then [CEvent.run (.convertResize (displayScaled g).1 (displayScaled g).2)] else [])

/-- `ComputerTool.screenshot`: capture to a file, optionally resize it, read
it back; raise `ToolError` if the file does not exist afterwards.  The
returned result is the capture's shell result with the image bytes
attached. -/
def screenshotRun (g : Geometry) (env : CEnv) : Except PyExc ToolResult × List CEvent :=
  if env.screenshotExists then
    (.ok ⟨some (env.stdout .screencapture), some (env.stderr .screencapture), some env.image⟩,
      screenshotTrace g)
  else
    (.error ⟨"ToolError", "Failed to take screenshot"⟩, screenshotTrace g)

/-- `ComputerTool.shell`: run the command; with `take_screenshot` also sleep
for the settle delay and take an automatic screenshot whose bytes are attached
to the result (a `ToolError` from that screenshot propagates). -/
def shellRun (g : Geometry) (env : CEnv) (cmd : Cmd) (takeScreenshot : Bool) :
    Except PyExc ToolResult × List CEvent :=
  if takeScreenshot then
    match screenshotRun g env with
    | (.ok sr, evs) =>
      (.ok ⟨some (env.stdout cmd), some (env.stderr cmd), sr.image_bytes⟩,
        CEvent.run cmd :: CEvent.sleep :: evs)
    | (.error e, evs) => (.error e, CEvent.run cmd :: CEvent.sleep :: evs)
  else
    (.ok ⟨some (env.stdout cmd), some (env.stderr cmd), none⟩, [CEvent.run cmd])

/-- The `try: return await self.shell(…) except Exception as e: return
ToolResult(error=str(e))` pattern of the `mouse_move`, `left_click_drag` and
`key` branches. -/
def shellCaught (g : Geometry) (env : CEnv) (cmd : Cmd) :
    Except PyExc ToolResult × List CEvent :=
  match shellRun g env cmd true with
  | (.ok r, evs) => (.ok r, evs)
  | (.error e, evs) => (.ok ⟨none, some e.msg, none⟩, evs)

/-- The `type` branch of `__call__`: split the text into
`TYPING_GROUP_SIZE`-character chunks, submit each as its own shell invocation
with `take_screenshot=False`, then take exactly one screenshot and return the
aggregated result with its image attached (a `ToolError` from that screenshot
propagates — this branch has no `try`). -/
def typeRun (g : Geometry) (env : CEnv) (t : List Char) :
    Except PyExc ToolResult × List CEvent :=
  let cs := chunks t TYPING_GROUP_SIZE
  let evs := cs.map fun c => CEvent.run (.typeChunk c)
  match screenshotRun g env with
  | (.ok sr, sevs) =>
    (.ok ⟨some (String.join (cs.map fun c => env.stdout (.typeChunk c))),
          some (String.join (cs.map fun c => env.stderr (.typeChunk c))),
          sr.image_bytes⟩,
      evs ++ sevs)
  | (.error e, sevs) => (.error e, evs ++ sevs)

/-- `ComputerTool.__call__`: validate the arguments by action family and
execute.  Validation failures raise `ToolError` before any shell invocation
(empty trace).  The `isinstance` re-checks of the typed arguments are
vacuous in this typed model and omitted; the key-mapping JSON file read of the
`key` branch is abstracted into `env.keyMap`. -/
def computerCall (g : Geometry) (env : CEnv) (action : String)
    (text : Option (List Char)) (coordinate : Option (List ℤ)) :
    Except PyExc ToolResult × List CEvent :=
  if action = "mouse_move" ∨ action = "left_click_drag" then
    match coordinate with
    | none => (.error ⟨"ToolError", "coordinate is required"⟩, [])
    | some c =>
      if text.isSome then (.error ⟨"ToolError", "text is not accepted"⟩, [])
      else if c.length ≠ 2 then (.error ⟨"ToolError", "must be a tuple of length 2"⟩, [])
      else if ¬ c.all (fun i => 0 ≤ i) then
        (.error ⟨"ToolError", "must be a tuple of non-negative ints"⟩, [])
      else
        match scale_coordinates g .api (c.getD 0 0) (c.getD 1 0) with
        | .error e => (.error e, [])
        | .ok (x, y) =>
          if action = "mouse_move" then shellCaught g env (.mouseMove x y)
          else shellCaught g env (.drag x y)
  else if action = "key" ∨ action = "type" then
    match text with
    | none => (.error ⟨"ToolError", "text is required"⟩, [])
    | some t =>
      if coordinate.isSome then (.error ⟨"ToolError", "coordinate is not accepted"⟩, [])
      else if action = "key" then shellCaught g env (.keyPress (env.keyMap t))
      else typeRun g env t
  else if action = "left_click" ∨ action = "right_click" ∨ action = "double_click" ∨
      action = "middle_click" ∨ action = "screenshot" ∨ action = "cursor_position" then
    if text.isSome then (.error ⟨"ToolError", "text is not accepted"⟩, [])
    else if coordinate.isSome then (.error ⟨"ToolError", "coordinate is not accepted"⟩, [])
    else if action = "screenshot" then screenshotRun g env
    else if action = "cursor_position" then
      match shellRun g env .cursorPos false with
      | (.error e, evs) => (.error e, evs)
      | (.ok r, evs) =>
        match env.cursor with
        | none => (.error ⟨"ValueError", "invalid literal for int"⟩, evs)
        | some (px, py) =>
          match scale_coordinates g .computer px py with
          | .error e => (.error e, evs)
          | .ok (sx, sy) =>
            (.ok ⟨some ("X=" ++ toString sx ++ ",Y=" ++ toString sy), r.error, r.image_bytes⟩,
              evs)
    else
      let arg := if action = "left_click" then "c:."
        else if action = "right_click" then "rc:."
        else if action = "middle_click" then "mc:."
        else "dc:."
      shellRun g env (.click arg) true
  else (.error ⟨"ToolError", "Invalid action: " ++ action⟩, [])

/-! ### `invoke` in `tools/computer.py` (result assembly and its `except`) -/

/-- A Python dict with string keys. -/
abbrev Dict := List (String × PyVal)

/-- Python dict assignment `d[k] = v`: replace in place, or append. -/
def dictInsert : Dict → String → PyVal → Dict
  | [], k, v => [(k, v)]
  | (k1, v1) :: rest, k, v =>
    if k1 = k then (k, v) :: rest else (k1, v1) :: dictInsert rest k v

/-- Python nested dict assignment `d[k1][k2] = v`: reading `d[k1]` raises
`KeyError` when the key is missing (and item assignment on a non-dict raises
`TypeError`). -/
def dictSetNested (d : Dict) (k1 k2 : String) (v : PyVal) : Except PyExc Dict :=
  match d.lookup k1 with
  | none => .error ⟨"KeyError", k1⟩
  | some (.dict inner) => .ok (dictInsert d k1 (.dict (dictInsert inner k2 v)))
  | some _ => .error ⟨"TypeError", "object does not support item assignment"⟩

/-- The `{"json": {"error": …, "message": …}}` payload `invoke` builds from a
caught exception (`type(e).__name__` and `str(e)`). -/
def excPayload (e : PyExc) : PyVal :=
  .dict [("json", .dict [("error", .str e.name), ("message", .str e.msg)])]

/-- Python truthiness of the optional string fields of a `ToolResult`:
`None` and the empty string are falsy. -/
def truthyStr : Option String → Bool
  | none => false
  | some s => !s.isEmpty

/-- Python truthiness of the optional image bytes of a `ToolResult`:
`None` and the empty byte string are falsy. -/
def truthyBytes : Option (List ℕ) → Bool
  | none => false
  | some b => !b.isEmpty

/-- `invoke` in `tools/computer.py`, applied to the outcome of
`asyncio.run(computer(**input_data))`.  The whole body sits in a
`try/except Exception` returning `excPayload`; the assembly writes
`tool_result_content["json"]["Error"]` / `…["Output"]` into an
empty dict — whose missing `"json"` key raises `KeyError` — and attaches the
image under the (directly assigned, hence safe) `"image"` key only when the
bytes are truthy (`if response.image_bytes:` — `None` and `b""` are skipped). -/
def invoke (outcome : Except PyExc ToolResult) : PyVal :=
  match outcome with
  | .error e => excPayload e
  | .ok r =>
    let step : Except PyExc Dict := do
      let d0 : Dict := []
      let d1 ← if truthyStr r.error then
          dictSetNested d0 "json" "Error" (.str (r.error.getD ""))
        else pure d0
      let d2 ← if truthyStr r.output then
          dictSetNested d1 "json" "Output" (.str (r.output.getD ""))
        else pure d1
      let d3 := if truthyBytes r.image_bytes then
          dictInsert d2 "image"
            (.dict [("format", .str "png"),
              ("source", .dict [("bytes", .bytes (r.image_bytes.getD []))])])
        else d2
      pure d3
    match step with
    | .ok d => .dict d
    | .error e => excPayload e

/-- The tool's top-level entry point on an action request: run `__call__` and
assemble its outcome. -/
def computerInvoke (g : Geometry) (env : CEnv) (action : String)
    (text : Option (List Char)) (coordinate : Option (List ℤ)) : PyVal :=
  invoke (computerCall g env action text coordinate).1

/-- Count of typing shell invocations in a trace. -/
def countTypeRuns (tr : List CEvent) : ℕ :=
  (tr.filter fun e => match e with | .run (.typeChunk _) => true | _ => false).length

/-- Count of screenshot captures (`screencapture` invocations) in a trace. -/
def countCaptures (tr : List CEvent) : ℕ :=
  (tr.filter fun e => match e with | .run .screencapture => true | _ => false).length

/-! ### Concrete environments used by witnesses and counterexamples -/

/-- A tool environment in which every tool raises `ValueError` from `invoke`. -/
def tenvRaises : ToolsEnv :=
  ⟨fun _ => true, fun _ => true, fun _ _ => .raises "ValueError" "boom"⟩

/-- A tool environment whose tools raise `ModuleNotFoundError` from inside
their own `invoke` call. -/
def tenvRaisesMNFE : ToolsEnv :=
  ⟨fun _ => true, fun _ => true, fun _ _ => .raises "ModuleNotFoundError" "nested"⟩

/-- A tool environment whose tools raise `AttributeError` from inside their
own `invoke` call. -/
def tenvRaisesAE : ToolsEnv :=
  ⟨fun _ => true, fun _ => true, fun _ _ => .raises "AttributeError" "nested"⟩

/-- A tool environment in which no tool module can be imported. -/
def tenvMissing : ToolsEnv :=
  ⟨fun _ => false, fun _ => false, fun _ _ => .returns (.str "")⟩

/-- A tool environment in which modules import but lack `invoke`. -/
def tenvNoInvoke : ToolsEnv :=
  ⟨fun _ => true, fun _ => false, fun _ _ => .returns (.str "")⟩

/-- A tool environment in which every `invoke` returns normally. -/
def tenvReturns : ToolsEnv :=
  ⟨fun _ => true, fun _ => true, fun _ _ => .returns (.str "ok")⟩

/-- An endpoint that always requests the same tool use. -/
def toolUseEndpoint : List Turn → ModelResponse :=
  fun _ => ⟨.toolUse, ⟨.assistant, [.toolUse "t1" "no_tool" (.str "inp")]⟩⟩

/-- An orchestrator environment whose model never stops requesting tools. -/
def envLoop : OrchEnv := ⟨toolUseEndpoint, tenvMissing⟩

/-- An endpoint that immediately ends its turn. -/
def stubEndpoint : List Turn → ModelResponse :=
  fun _ => ⟨.endTurn, ⟨.assistant, [.text "done"]⟩⟩

/-- An orchestrator environment with an immediately-terminating model. -/
def envStub : OrchEnv := ⟨stubEndpoint, tenvMissing⟩

/-- A sample user turn. -/
def userTurn : Turn := ⟨.user, [.text "hello"]⟩

/-- A `tool_use` model turn with requests `"t1"` and `"t2"`. -/
def twoRequestTurn : Turn :=
  ⟨.assistant, [.toolUse "t1" "weather_tool" (.str "q"), .toolUse "t2" "computer" (.str "r")]⟩

/-- The results the dispatcher produces for `twoRequestTurn` under
`tenvMissing`. -/
def twoRequestResults : List ContentBlock :=
  [.toolResult "t1" [errorPayload (notFoundMessage "weather_tool")],
   .toolResult "t2" [errorPayload (notFoundMessage "computer")]]

/-- A display geometry exercised by the tool witnesses. -/
def gWitness : Geometry := ⟨2560, 1600⟩

/-- A concrete automation environment with an existing screenshot file. -/
def cenvWitness : CEnv :=
  ⟨fun _ => "", fun _ => "", [7], true, fun _ => "", none⟩

/-! ### Helper lemmas about the orchestrator -/

/-- `processGo` only ever appends to the transcript it is given. -/
theorem processGo_conv_append (env : OrchEnv) :
    ∀ (n : ℕ) (resp : ModelResponse) (conv : List Turn),
      ∃ t, (processGo env resp conv n).conv = conv ++ t := by
  intro n
  induction n with
  | zero => exact fun resp conv => ⟨[], by simp [processGo]⟩
  | succ n ih =>
    intro resp conv
    cases hsr : resp.stopReason with
    | toolUse =>
      cases hcol : collectRound env.tools resp.message.content with
      | error pe =>
        exact ⟨[resp.message], by simp [processGo, hsr, hcol]⟩
      | ok p =>
        obtain ⟨t, ht⟩ := ih (env.endpoint (conv ++ [resp.message] ++ [Turn.mk .user p.1]))
          (conv ++ [resp.message] ++ [Turn.mk .user p.1])
        refine ⟨[resp.message] ++ [Turn.mk .user p.1] ++ t, ?_⟩
        simp only [processGo, hsr, hcol]
        simpa using ht
    | endTurn =>
      rcases hh : resp.message.content.head? with _ | b
      · exact ⟨[resp.message], by simp [processGo, hsr, hh]⟩
      · cases b <;> exact ⟨[resp.message], by simp [processGo, hsr, hh]⟩
    | other s => exact ⟨[resp.message], by simp [processGo, hsr]⟩

/-- With positive fuel, `processGo` appends the model message first. -/
theorem processGo_succ_append (env : OrchEnv) (resp : ModelResponse)
    (conv : List Turn) (n : ℕ) :
    ∃ t, (processGo env resp conv (n + 1)).conv = conv ++ [resp.message] ++ t := by
  cases hsr : resp.stopReason with
  | toolUse =>
    cases hcol : collectRound env.tools resp.message.content with
    | error pe => exact ⟨[], by simp [processGo, hsr, hcol]⟩
    | ok p =>
      obtain ⟨t, ht⟩ := processGo_conv_append env n
        (env.endpoint (conv ++ [resp.message] ++ [Turn.mk .user p.1]))
        (conv ++ [resp.message] ++ [Turn.mk .user p.1])
      refine ⟨[Turn.mk .user p.1] ++ t, ?_⟩
      simp only [processGo, hsr, hcol]
      simpa using ht
  | endTurn =>
    rcases hh : resp.message.content.head? with _ | b
    · exact ⟨[], by simp [processGo, hsr, hh]⟩
    · cases b <;> exact ⟨[], by simp [processGo, hsr, hh]⟩
  | other s => exact ⟨[], by simp [processGo, hsr]⟩

/-- When the dispatcher never raises, a round's collection never raises. -/
theorem collectRound_ok (tenv : ToolsEnv)
    (h : ∀ pl, ∃ r, invoke_tool tenv pl = .ok r) :
    ∀ l, ∃ rs es, collectRound tenv l = .ok (rs, es) := by
  intro l
  induction l with
  | nil => exact ⟨[], [], rfl⟩
  | cons b rest ih =>
    obtain ⟨rs, es, hre⟩ := ih
    cases b with
    | text s => exact ⟨rs, .modelText s :: es, by simp [collectRound, hre]⟩
    | toolUse id name input =>
      obtain ⟨r, hr⟩ := h ⟨id, name, input⟩
      exact ⟨.toolResult r.toolUseId [r.content] :: rs, es, by simp [collectRound, hr, hre]⟩
    | toolResult id c => exact ⟨rs, es, by simpa [collectRound] using hre⟩

/-- The dispatcher echoes the request's `toolUseId` whenever it returns. -/
theorem invoke_tool_id (tenv : ToolsEnv) (pl : ToolPayload) (r : ToolResponse)
    (h : invoke_tool tenv pl = .ok r) : r.toolUseId = pl.toolUseId := by
  unfold invoke_tool at h
  split_ifs at h with h1 h2
  · cases h; rfl
  · cases h; rfl
  · rcases hinv : tenv.invoke pl.name pl.input with v | ⟨exc, msg⟩ <;> rw [hinv] at h <;>
      dsimp only at h
    · cases h; rfl
    · split_ifs at h <;> cases h <;> rfl

/-- The synthesized results of a round: one tool-result per tool-use request,
with matching ids, in request order. -/
theorem collectRound_spec (tenv : ToolsEnv) :
    ∀ (l rs : List ContentBlock) (es : List Event),
      collectRound tenv l = .ok (rs, es) →
      resultIds rs = requestIds l ∧ rs.length = (requestIds l).length ∧
      ∀ b ∈ rs, ∃ id c, b = .toolResult id c := by
  intro l
  induction l with
  | nil =>
    intro rs es h
    simp [collectRound] at h
    simp [h.1, resultIds, requestIds]
  | cons b rest ih =>
    intro rs es h
    cases b with
    | text s =>
      rw [collectRound] at h
      cases hre : collectRound tenv rest with
      | ok p =>
        rw [hre] at h
        cases h
        obtain ⟨h1, h2, h3⟩ := ih p.1 p.2 (by rw [hre])
        exact ⟨by simpa [resultIds, requestIds] using h1,
          by simpa [requestIds] using h2, h3⟩
      | error pe => rw [hre] at h; cases h
    | toolUse id name input =>
      rw [collectRound] at h
      cases hr : invoke_tool tenv ⟨id, name, input⟩ with
      | ok r =>
        rw [hr] at h
        cases hre : collectRound tenv rest with
        | ok p =>
          rw [hre] at h
          cases h
          obtain ⟨h1, h2, h3⟩ := ih p.1 p.2 (by rw [hre])
          have hid := invoke_tool_id tenv ⟨id, name, input⟩ r hr
          refine ⟨?_, ?_, ?_⟩
          · simpa [resultIds, requestIds, hid] using h1
          · simpa [requestIds] using h2
          · intro b hb
            rw [List.mem_cons] at hb
            rcases hb with rfl | hb
            · exact ⟨r.toolUseId, [r.content], rfl⟩
            · exact h3 b hb
        | error pe => rw [hre] at h; cases h
      | error e => rw [hr] at h; cases h
    | toolResult id c =>
      rw [collectRound] at h
      obtain ⟨h1, h2, h3⟩ := ih rs es h
      exact ⟨by simpa [requestIds] using h1, by simpa [requestIds] using h2, h3⟩

/-! ### Claim C1 — dispatcher error conversion -/

/-- C1 (counterexample): the claim "any exception raised inside the tool's
invoke call is converted into a structured error payload instead of
propagating" is false — with a tool whose `invoke` raises `ValueError`, the
dispatcher propagates the exception instead of returning a `ToolResult`. -/
theorem invoke_tool_uncaught_exception :
    invoke_tool tenvRaises ⟨"id1", "computer", .str "x"⟩ =
      .error ⟨"ValueError", "boom"⟩ := rfl

/-- C1 (amended): `_invoke_tool` converts an unknown tool name and a tool
module missing `invoke` into structured error payloads keyed by the original
`toolUseId` (likewise `ModuleNotFoundError`/`AttributeError` raised inside the
tool's `invoke`), and echoes the `toolUseId` on success; but any other
exception raised inside the tool's `invoke` call propagates out of the
dispatcher uncaught. -/
theorem invoke_tool_error_conversion (tenv : ToolsEnv) (pl : ToolPayload) :
    (tenv.moduleExists pl.name = false →
      invoke_tool tenv pl = .ok ⟨pl.toolUseId, errorPayload (notFoundMessage pl.name)⟩) ∧
    (tenv.moduleExists pl.name = true → tenv.hasInvoke pl.name = false →
      invoke_tool tenv pl = .ok ⟨pl.toolUseId, errorPayload (noInvokeMessage pl.name)⟩) ∧
    (∀ v, tenv.moduleExists pl.name = true → tenv.hasInvoke pl.name = true →
      tenv.invoke pl.name pl.input = .returns v →
      invoke_tool tenv pl = .ok ⟨pl.toolUseId, v⟩) ∧
    (∀ msg, tenv.moduleExists pl.name = true → tenv.hasInvoke pl.name = true →
      tenv.invoke pl.name pl.input = .raises "ModuleNotFoundError" msg →
      invoke_tool tenv pl = .ok ⟨pl.toolUseId, errorPayload (notFoundMessage pl.name)⟩) ∧
    (∀ msg, tenv.moduleExists pl.name = true → tenv.hasInvoke pl.name = true →
      tenv.invoke pl.name pl.input = .raises "AttributeError" msg →
      invoke_tool tenv pl = .ok ⟨pl.toolUseId, errorPayload (noInvokeMessage pl.name)⟩) ∧
    (∀ exc msg, tenv.moduleExists pl.name = true → tenv.hasInvoke pl.name = true →
      tenv.invoke pl.name pl.input = .raises exc msg →
      exc ≠ "ModuleNotFoundError" → exc ≠ "AttributeError" →
      invoke_tool tenv pl = .error ⟨exc, msg⟩) := by
  refine ⟨fun h1 => ?_, fun h1 h2 => ?_, fun v h1 h2 h3 => ?_, fun msg h1 h2 h3 => ?_,
    fun msg h1 h2 h3 => ?_, fun exc msg h1 h2 h3 h4 h5 => ?_⟩
  · simp [invoke_tool, h1]
  · simp [invoke_tool, h1, h2]
  · simp [invoke_tool, h1, h2, h3]
  · simp [invoke_tool, h1, h2, h3]
  · simp [invoke_tool, h1, h2, h3]
  · simp [invoke_tool, h1, h2, h3, h4, h5]

/-- Witness for C1 (amended), instantiating each arm at a concrete tool
environment and payload. -/
theorem invoke_tool_error_conversion_witness :
    invoke_tool tenvMissing ⟨"id1", "nonexistent_tool", .str "x"⟩ =
      .ok ⟨"id1", errorPayload (notFoundMessage "nonexistent_tool")⟩ ∧
    invoke_tool tenvNoInvoke ⟨"id2", "weather_tool", .str "x"⟩ =
      .ok ⟨"id2", errorPayload (noInvokeMessage "weather_tool")⟩ ∧
    invoke_tool tenvReturns ⟨"id3", "file_reader", .str "x"⟩ = .ok ⟨"id3", .str "ok"⟩ ∧
    invoke_tool tenvRaisesMNFE ⟨"id5", "file_packer_for_lambda", .str "x"⟩ =
      .ok ⟨"id5", errorPayload (notFoundMessage "file_packer_for_lambda")⟩ ∧
    invoke_tool tenvRaisesAE ⟨"id6", "file_reader", .str "x"⟩ =
      .ok ⟨"id6", errorPayload (noInvokeMessage "file_reader")⟩ ∧
    invoke_tool tenvRaises ⟨"id4", "computer", .str "x"⟩ = .error ⟨"ValueError", "boom"⟩ :=
  ⟨(invoke_tool_error_conversion tenvMissing _).1 rfl,
    (invoke_tool_error_conversion tenvNoInvoke _).2.1 rfl rfl,
    (invoke_tool_error_conversion tenvReturns _).2.2.1 _ rfl rfl rfl,
    (invoke_tool_error_conversion tenvRaisesMNFE _).2.2.2.1 _ rfl rfl rfl,
    (invoke_tool_error_conversion tenvRaisesAE _).2.2.2.2.1 _ rfl rfl rfl,
    (invoke_tool_error_conversion tenvRaises _).2.2.2.2.2 _ _ rfl rfl rfl
      (by decide) (by decide)⟩

/-! ### Claim C2 — recursion budget exhaustion -/

/-- Core of C2: with a model that always answers `tool_use` and a dispatcher
that never raises, `processGo` on positive fuel `n` ends recursion-exhausted
after exactly `n` tool-use rounds, each adding exactly two turns. -/
theorem processGo_exhausts (env : OrchEnv)
    (hstop : ∀ c, (env.endpoint c).stopReason = .toolUse)
    (hok : ∀ pl, ∃ r, invoke_tool env.tools pl = .ok r) :
    ∀ (n : ℕ) (resp : ModelResponse) (conv : List Turn),
      resp.stopReason = .toolUse → 0 < n →
      (processGo env resp conv n).outcome = .recursionExhausted ∧
      (processGo env resp conv n).conv.length = conv.length + 2 * n := by
  intro n
  induction n with
  | zero => exact fun resp conv _ h => absurd h (lt_irrefl 0)
  | succ n ih =>
    intro resp conv hresp _
    obtain ⟨rs, es, hcol⟩ := collectRound_ok env.tools hok resp.message.content
    rcases Nat.eq_zero_or_pos n with rfl | hpos
    · constructor
      · simp [processGo, hresp, hcol]
      · simp [processGo, hresp, hcol]
    · have ih2 := ih (env.endpoint (conv ++ [resp.message] ++ [Turn.mk .user rs]))
        (conv ++ [resp.message] ++ [Turn.mk .user rs]) (hstop _) hpos
      constructor
      · simp only [processGo, hresp, hcol]
        exact ih2.1
      · simp only [processGo, hresp, hcol]
        rw [ih2.2]
        simp
        omega

/-- C2: for every positive budget `B` and every endpoint that always answers
`tool_use` (with tools that return), the loop decrements the budget once per
round and aborts recursion-exhausted after exactly `B` rounds (the transcript
grows by exactly two turns per round, never looping forever). -/
theorem recursion_budget_exhaustion (env : OrchEnv) (resp : ModelResponse)
    (conv : List Turn) (B : ℤ) (hB : 0 < B)
    (hresp : resp.stopReason = .toolUse)
    (hstop : ∀ c, (env.endpoint c).stopReason = .toolUse)
    (hok : ∀ pl, ∃ r, invoke_tool env.tools pl = .ok r) :
    (process_model_response env resp conv B).outcome = .recursionExhausted ∧
    (process_model_response env resp conv B).conv.length = conv.length + 2 * B.toNat := by
  have hn : 0 < B.toNat := by omega
  exact processGo_exhausts env hstop hok B.toNat resp conv hresp hn

/-- Witness for C2 at budget 2 with an always-`tool_use` endpoint. -/
theorem recursion_budget_exhaustion_witness :
    (process_model_response envLoop (toolUseEndpoint []) [] 2).outcome =
      .recursionExhausted ∧
    (process_model_response envLoop (toolUseEndpoint []) [] 2).conv.length =
      ([] : List Turn).length + 2 * (2 : ℤ).toNat :=
  recursion_budget_exhaustion envLoop (toolUseEndpoint []) [] 2 (by decide) rfl
    (fun _ => rfl)
    (fun pl => ⟨⟨pl.toolUseId, errorPayload (notFoundMessage pl.name)⟩, rfl⟩)

/-! ### Claim C4 — one result per request, ids and order preserved -/

/-- C4: for a `tool_use` model turn whose round completes, the handler
synthesizes exactly one new user turn, placed directly after the model turn,
whose content is exactly one tool-result block per tool-use request — same
ids, same order, nothing else. -/
theorem tool_results_one_to_one (env : OrchEnv) (resp : ModelResponse)
    (conv : List Turn) (n : ℕ) (results : List ContentBlock) (es : List Event)
    (hresp : resp.stopReason = .toolUse)
    (hcol : collectRound env.tools resp.message.content = .ok (results, es)) :
    resultIds results = requestIds resp.message.content ∧
    results.length = (requestIds resp.message.content).length ∧
    (∀ b ∈ results, ∃ id c, b = .toolResult id c) ∧
    ∃ tail, (processGo env resp conv (n + 1)).conv =
      conv ++ [resp.message, Turn.mk .user results] ++ tail := by
  obtain ⟨h1, h2, h3⟩ := collectRound_spec env.tools _ _ _ hcol
  refine ⟨h1, h2, h3, ?_⟩
  obtain ⟨t, ht⟩ := processGo_conv_append env n
    (env.endpoint (conv ++ [resp.message] ++ [Turn.mk .user results]))
    (conv ++ [resp.message] ++ [Turn.mk .user results])
  refine ⟨t, ?_⟩
  simp only [processGo, hresp, hcol]
  simpa using ht

/-- Witness for C4: two requests with ids `"t1"`, `"t2"` yield exactly two
results with ids `"t1"` then `"t2"` in one synthesized user turn. -/
theorem tool_results_one_to_one_witness :
    resultIds twoRequestResults = ["t1", "t2"] ∧
    twoRequestResults.length = 2 ∧
    (∀ b ∈ twoRequestResults, ∃ id c, b = ContentBlock.toolResult id c) ∧
    ∃ tail, (processGo envStub ⟨.toolUse, twoRequestTurn⟩ [] 1).conv =
      [] ++ [twoRequestTurn, Turn.mk .user twoRequestResults] ++ tail := by
  have h := tool_results_one_to_one envStub ⟨.toolUse, twoRequestTurn⟩ [] 0
    twoRequestResults [] rfl rfl
  refine ⟨?_, ?_, h.2.2.1, h.2.2.2⟩
  · rw [h.1]; rfl
  · rw [h.2.1]; rfl

/-! ### Claim C5 — other stop reasons are silently dropped -/

/-- C5 (counterexample): a stop reason that is neither `tool_use` nor
`end_turn` (here `"max_tokens"`) is NOT surfaced: the model turn is appended
and the orchestrator returns normally with no output event — it is silently
dropped, contradicting the claim that it is explicitly surfaced as an
unhandled terminal condition. -/
theorem other_stop_reason_counterexample :
    process_model_response envStub
        ⟨.other "max_tokens", ⟨.assistant, [.text "partial"]⟩⟩ [] 5 =
      ⟨[⟨.assistant, [.text "partial"]⟩], [], .normal⟩ := rfl

/-- C5 (amended): for every response whose stop reason is neither `tool_use`
nor `end_turn` (and a positive budget), the orchestrator appends the model
turn and then returns normally, surfacing nothing: the stop reason is
silently ignored rather than explicitly surfaced. -/
theorem other_stop_reason_silent (env : OrchEnv) (resp : ModelResponse)
    (conv : List Turn) (b : ℤ) (s : String)
    (hb : 0 < b) (h : resp.stopReason = .other s) :
    process_model_response env resp conv b =
      ⟨conv ++ [resp.message], [], .normal⟩ := by
  have hn : b.toNat = (b.toNat - 1) + 1 := by omega
  rw [process_model_response, hn]
  simp [processGo, h]

/-- Witness for C5 (amended) at a concrete unhandled stop reason. -/
theorem other_stop_reason_silent_witness :
    process_model_response envStub
        ⟨.other "content_filtered", ⟨.assistant, [.text "x"]⟩⟩ [userTurn] 3 =
      ⟨[userTurn] ++ [⟨.assistant, [.text "x"]⟩], [], .normal⟩ :=
  other_stop_reason_silent envStub _ [userTurn] 3 "content_filtered" (by decide) rfl

/-! ### Claim C9 — the model turn append is NOT unconditional -/

/-- C9 (counterexample): at budget `0` the run aborts recursion-exhausted
BEFORE appending the model turn — the transcript is left unchanged, so the
append is not unconditional with respect to budget exhaustion. -/
theorem budget_zero_skips_append :
    process_model_response envStub ⟨.endTurn, ⟨.assistant, [.text "4"]⟩⟩ [userTurn] 0 =
      ⟨[userTurn], [], .recursionExhausted⟩ := rfl

/-- C9 (amended): whenever the budget is positive, `_process_model_response`
appends the model turn to the transcript regardless of the stop reason; when
the budget is exhausted (`<= 0`) it aborts recursion-exhausted without
appending. -/
theorem model_turn_append_behavior (env : OrchEnv) (resp : ModelResponse)
    (conv : List Turn) (b : ℤ) :
    (0 < b → ∃ t, (process_model_response env resp conv b).conv =
      conv ++ [resp.message] ++ t) ∧
    (b ≤ 0 → process_model_response env resp conv b =
      ⟨conv, [], .recursionExhausted⟩) := by
  constructor
  · intro hb
    have hn : b.toNat = (b.toNat - 1) + 1 := by omega
    rw [process_model_response, hn]
    exact processGo_succ_append env resp conv _
  · intro hb
    have hn : b.toNat = 0 := by omega
    rw [process_model_response, hn]
    rfl

/-- Witness for C9 (amended): both arms at concrete budgets 1 and 0. -/
theorem model_turn_append_behavior_witness :
    (∃ t, (process_model_response envStub
        ⟨.other "max_tokens", ⟨.assistant, []⟩⟩ [] 1).conv =
      [] ++ [(⟨.assistant, []⟩ : Turn)] ++ t) ∧
    process_model_response envStub ⟨.other "max_tokens", ⟨.assistant, []⟩⟩ [] 0 =
      ⟨[], [], .recursionExhausted⟩ :=
  ⟨(model_turn_append_behavior envStub _ [] 1).1 (by decide),
    (model_turn_append_behavior envStub _ [] 0).2 (by decide)⟩

/-! ### Rounding and scaling lemmas -/

/-- `pyRound` is within a half of its argument. -/
theorem pyRound_abs_le (q : ℚ) : |(pyRound q : ℚ) - q| ≤ 1 / 2 := by
  have h0 : (⌊q⌋ : ℚ) ≤ q := Int.floor_le q
  have h1 : q < ⌊q⌋ + 1 := Int.lt_floor_add_one q
  unfold pyRound
  split_ifs with c1 c2 c3
  · rw [abs_le]; constructor <;> linarith
  · push_cast
    rw [abs_le]; constructor <;> linarith
  · rw [abs_le]; constructor <;> linarith
  · push_cast
    rw [abs_le]; constructor <;> linarith

/-- Dividing by a factor `0 < f < 2`, rounding, multiplying back by `f` and
rounding again lands within one unit of the original integer. -/
theorem pyRound_div_mul (f : ℚ) (x : ℤ) (hf0 : 0 < f) (hf2 : f < 2) :
    |pyRound ((pyRound ((x : ℚ) / f) : ℚ) * f) - x| ≤ 1 := by
  set a : ℚ := (x : ℚ) / f with ha
  have hx : a * f = (x : ℚ) := div_mul_cancel₀ _ (ne_of_gt hf0)
  have h1 := pyRound_abs_le a
  have h2 := pyRound_abs_le ((pyRound a : ℚ) * f)
  have h3 : |(pyRound a : ℚ) * f - (x : ℚ)| ≤ f / 2 := by
    calc |(pyRound a : ℚ) * f - (x : ℚ)|
        = |((pyRound a : ℚ) - a) * f| := by rw [sub_mul, hx]
      _ = |(pyRound a : ℚ) - a| * f := by rw [abs_mul, abs_of_pos hf0]
      _ ≤ (1 / 2) * f := mul_le_mul_of_nonneg_right h1 (le_of_lt hf0)
      _ = f / 2 := by ring
  have h4 : |(pyRound ((pyRound a : ℚ) * f) : ℚ) - (x : ℚ)| < 3 / 2 := by
    calc |(pyRound ((pyRound a : ℚ) * f) : ℚ) - (x : ℚ)|
        ≤ |(pyRound ((pyRound a : ℚ) * f) : ℚ) - (pyRound a : ℚ) * f| +
            |(pyRound a : ℚ) * f - (x : ℚ)| := abs_sub_le _ _ _
      _ ≤ 1 / 2 + f / 2 := add_le_add h2 h3
      _ < 3 / 2 := by linarith
  by_contra hc
  push_neg at hc
  have h5 : (2 : ℤ) ≤ |pyRound ((pyRound a : ℚ) * f) - x| := by omega
  have h6 : (2 : ℚ) ≤ |(pyRound ((pyRound a : ℚ) * f) : ℚ) - (x : ℚ)| := by
    exact_mod_cast h5
  linarith

/-- Inverting the preset-selection loop: a selected target is one of the
three presets, its width is below the physical width, and its aspect ratio is
within the tolerance of the physical ratio. -/
theorem selectTarget_inv (g : Geometry) (d : Resolution)
    (h : selectTarget g = some d) :
    (d = ⟨1024, 768⟩ ∨ d = ⟨1280, 800⟩ ∨ d = ⟨1366, 768⟩) ∧
    d.width < g.width ∧
    |(d.width : ℚ) / (d.height : ℚ) - aspectRatio g| < 1 / 50 := by
  simp only [selectTarget, MAX_SCALING_TARGETS, selectTargetGo, Nat.cast_ofNat] at h
  by_cases c1 : |(1024 : ℚ) / (768 : ℚ) - aspectRatio g| < 1 / 50
  · rw [if_pos c1] at h
    by_cases w1 : 1024 < g.width
    · rw [if_pos w1] at h
      cases h
      exact ⟨Or.inl rfl, by simpa using w1, by simpa [Nat.cast_ofNat] using c1⟩
    · rw [if_neg w1] at h
      cases h
  · rw [if_neg c1] at h
    by_cases c2 : |(1280 : ℚ) / (800 : ℚ) - aspectRatio g| < 1 / 50
    · rw [if_pos c2] at h
      by_cases w2 : 1280 < g.width
      · rw [if_pos w2] at h
        cases h
        exact ⟨Or.inr (Or.inl rfl), by simpa using w2, by simpa [Nat.cast_ofNat] using c2⟩
      · rw [if_neg w2] at h
        cases h
    · rw [if_neg c2] at h
      by_cases c3 : |(1366 : ℚ) / (768 : ℚ) - aspectRatio g| < 1 / 50
      · rw [if_pos c3] at h
        by_cases w3 : 1366 < g.width
        · rw [if_pos w3] at h
          cases h
          exact ⟨Or.inr (Or.inr rfl), by simpa using w3, by simpa [Nat.cast_ofNat] using c3⟩
        · rw [if_neg w3] at h
          cases h
      · rw [if_neg c3] at h
        cases h

/-- Bounds on the scaling factors of a selected target: both are positive and
strictly below 2 (the width factor is in fact below 1). -/
theorem factor_bounds (g : Geometry) (d : Resolution) (hH : 0 < g.height)
    (h : selectTarget g = some d) :
    0 < (d.width : ℚ) / (g.width : ℚ) ∧ (d.width : ℚ) / (g.width : ℚ) < 2 ∧
    0 < (d.height : ℚ) / (g.height : ℚ) ∧ (d.height : ℚ) / (g.height : ℚ) < 2 := by
  obtain ⟨hd, hw, hr⟩ := selectTarget_inv g d h
  have hWpos : 0 < g.width := by rcases hd with rfl | rfl | rfl <;> omega
  have hHq : (0 : ℚ) < (g.height : ℚ) := by exact_mod_cast hH
  have hWq : (0 : ℚ) < (g.width : ℚ) := by exact_mod_cast hWpos
  have hwq : (d.width : ℚ) < (g.width : ℚ) := by exact_mod_cast hw
  obtain ⟨hr1, hr2⟩ := abs_lt.mp hr
  rw [aspectRatio] at hr1 hr2
  have hWH : (g.width : ℚ) / (g.height : ℚ) <
      (d.width : ℚ) / (d.height : ℚ) + 1 / 50 := by linarith
  rcases hd with rfl | rfl | rfl <;>
    simp only [] at hWH hwq ⊢ <;>
    push_cast at hWH hwq ⊢ <;>
    rw [div_lt_iff₀ hHq] at hWH <;>
    refine ⟨by positivity, by rw [div_lt_iff₀ hWq]; linarith,
      by positivity, by rw [div_lt_iff₀ hHq]; linarith⟩

/-! ### Claim C3 — coordinate scaling round trip -/

/-- C3: whenever a target preset is selected and `(x, y)` is within the
physical bounds, scaling with source `api` succeeds, and scaling the result
back with source `computer` recovers the original coordinates within the
integer rounding tolerance of one unit in each component. -/
theorem scale_coordinates_round_trip (g : Geometry) (d : Resolution) (x y : ℤ)
    (hH : 0 < g.height) (hsel : selectTarget g = some d)
    (hx : x ≤ (g.width : ℤ)) (hy : y ≤ (g.height : ℤ)) :
    ∃ p : ℤ × ℤ, scale_coordinates g .api x y = .ok p ∧
      ∃ q : ℤ × ℤ, scale_coordinates g .computer p.1 p.2 = .ok q ∧
        |q.1 - x| ≤ 1 ∧ |q.2 - y| ≤ 1 := by
  obtain ⟨hxf0, hxf2, hyf0, hyf2⟩ := factor_bounds g d hH hsel
  have hnb : ¬((g.width : ℤ) < x ∨ (g.height : ℤ) < y) := by
    push_neg
    exact ⟨hx, hy⟩
  refine ⟨(pyRound ((x : ℚ) / ((d.width : ℚ) / (g.width : ℚ))),
           pyRound ((y : ℚ) / ((d.height : ℚ) / (g.height : ℚ)))), ?_, ?_⟩
  · simp only [scale_coordinates, scalingEnabled, hsel]
    rw [if_neg (by simp), if_neg hnb]
  · refine ⟨(pyRound ((pyRound ((x : ℚ) / ((d.width : ℚ) / (g.width : ℚ))) : ℚ) *
        ((d.width : ℚ) / (g.width : ℚ))),
      pyRound ((pyRound ((y : ℚ) / ((d.height : ℚ) / (g.height : ℚ))) : ℚ) *
        ((d.height : ℚ) / (g.height : ℚ)))), ?_, ?_, ?_⟩
    · simp only [scale_coordinates, scalingEnabled, hsel]
      rw [if_neg (by simp)]
    · exact pyRound_div_mul ((d.width : ℚ) / (g.width : ℚ)) x hxf0 hxf2
    · exact pyRound_div_mul ((d.height : ℚ) / (g.height : ℚ)) y hyf0 hyf2

/-- Witness for C3 on a 2560×1600 display (WXGA target) at `(100, 100)`. -/
theorem scale_coordinates_round_trip_witness :
    ∃ p : ℤ × ℤ, scale_coordinates ⟨2560, 1600⟩ .api 100 100 = .ok p ∧
      ∃ q : ℤ × ℤ, scale_coordinates ⟨2560, 1600⟩ .computer p.1 p.2 = .ok q ∧
        |q.1 - 100| ≤ 1 ∧ |q.2 - 100| ≤ 1 :=
  scale_coordinates_round_trip ⟨2560, 1600⟩ ⟨1280, 800⟩ 100 100 (by decide)
    (by
      have h415 : |(4 : ℚ) / 15| = 4 / 15 := abs_of_pos (by norm_num)
      norm_num [selectTarget, MAX_SCALING_TARGETS, selectTargetGo, aspectRatio, h415])
    (by decide) (by decide)

/-! ### Claim C8 — preset selection rule -/

/-- C8: the selection loop (with its early `break` on the first
ratio-matching preset) selects exactly the first preset matching the spec's
conjunctive rule — the tolerance bands of the three presets are disjoint, so
at most one preset can ratio-match — and when no preset qualifies,
coordinates pass through unscaled for both scaling sources. -/
theorem select_target_matches_spec (g : Geometry) (_hH : 0 < g.height) :
    selectTarget g = selectTargetSpec g ∧
    (selectTargetSpec g = none → ∀ (src : ScalingSource) (x y : ℤ),
      scale_coordinates g src x y = .ok (x, y)) := by
  have key : selectTarget g = selectTargetSpec g := by
    by_cases c1 : |(1024 : ℚ) / (768 : ℚ) - aspectRatio g| < (50 : ℚ)⁻¹
    · have c2 : ¬ |(1280 : ℚ) / (800 : ℚ) - aspectRatio g| < (50 : ℚ)⁻¹ := by
        obtain ⟨a1, a2⟩ := abs_lt.mp c1
        intro hc
        obtain ⟨b1, b2⟩ := abs_lt.mp hc
        linarith
      have c3 : ¬ |(1366 : ℚ) / (768 : ℚ) - aspectRatio g| < (50 : ℚ)⁻¹ := by
        obtain ⟨a1, a2⟩ := abs_lt.mp c1
        intro hc
        obtain ⟨b1, b2⟩ := abs_lt.mp hc
        linarith
      by_cases w1 : 1024 < g.width <;>
        simp [selectTarget, selectTargetSpec, MAX_SCALING_TARGETS, selectTargetGo,
          List.find?, Nat.cast_ofNat, c1, c2, c3, w1]
    · by_cases c2 : |(1280 : ℚ) / (800 : ℚ) - aspectRatio g| < (50 : ℚ)⁻¹
      · have c3 : ¬ |(1366 : ℚ) / (768 : ℚ) - aspectRatio g| < (50 : ℚ)⁻¹ := by
          obtain ⟨a1, a2⟩ := abs_lt.mp c2
          intro hc
          obtain ⟨b1, b2⟩ := abs_lt.mp hc
          linarith
        by_cases w2 : 1280 < g.width <;>
          simp [selectTarget, selectTargetSpec, MAX_SCALING_TARGETS, selectTargetGo,
            List.find?, Nat.cast_ofNat, c1, c2, c3, w2]
      · by_cases c3 : |(1366 : ℚ) / (768 : ℚ) - aspectRatio g| < (50 : ℚ)⁻¹
        · by_cases w3 : 1366 < g.width <;>
            simp [selectTarget, selectTargetSpec, MAX_SCALING_TARGETS, selectTargetGo,
              List.find?, Nat.cast_ofNat, c1, c2, c3, w3]
        · simp [selectTarget, selectTargetSpec, MAX_SCALING_TARGETS, selectTargetGo,
            List.find?, Nat.cast_ofNat, c1, c2, c3]
  refine ⟨key, fun hnone src x y => ?_⟩
  have h0 : selectTarget g = none := key.trans hnone
  cases src <;> simp [scale_coordinates, h0, scalingEnabled]

/-- Witness for C8 at a concrete geometry. -/
theorem select_target_matches_spec_witness :
    selectTarget ⟨2560, 1600⟩ = selectTargetSpec ⟨2560, 1600⟩ ∧
    (selectTargetSpec ⟨2560, 1600⟩ = none → ∀ (src : ScalingSource) (x y : ℤ),
      scale_coordinates ⟨2560, 1600⟩ src x y = .ok (x, y)) :=
  select_target_matches_spec ⟨2560, 1600⟩ (by decide)

/-! ### Chunking lemmas (chunk size 50) -/

/-- The chunks of a string concatenate back to the string. -/
theorem chunksGo50_join : ∀ (fuel : ℕ) (s : List Char), s.length ≤ fuel →
    (chunksGo fuel s 50).flatten = s := by
  intro fuel
  induction fuel with
  | zero =>
    intro s hs
    have h0 : s = [] := List.eq_nil_of_length_eq_zero (Nat.le_zero.mp hs)
    simp [chunksGo, h0]
  | succ n ih =>
    intro s hs
    by_cases h0 : s = []
    · simp [chunksGo, h0]
    · rw [chunksGo, if_neg (by simp [h0])]
      have hd : (s.drop 50).length ≤ n := by
        rw [List.length_drop]
        have : 0 < s.length := List.length_pos.mpr h0
        omega
      simp only [List.flatten_cons, ih (s.drop 50) hd]
      exact List.take_append_drop 50 s

/-- The number of chunks is the length divided by 50, rounded up. -/
theorem chunksGo50_length : ∀ (fuel : ℕ) (s : List Char), s.length ≤ fuel →
    (chunksGo fuel s 50).length = (s.length + 49) / 50 := by
  intro fuel
  induction fuel with
  | zero =>
    intro s hs
    have h0 : s = [] := List.eq_nil_of_length_eq_zero (Nat.le_zero.mp hs)
    simp [chunksGo, h0]
  | succ n ih =>
    intro s hs
    by_cases h0 : s = []
    · simp [chunksGo, h0]
    · rw [chunksGo, if_neg (by simp [h0])]
      have hlen : 0 < s.length := List.length_pos.mpr h0
      have hd : (s.drop 50).length ≤ n := by
        rw [List.length_drop]; omega
      simp only [List.length_cons, ih (s.drop 50) hd, List.length_drop]
      omega

/-- Every chunk has at most 50 characters. -/
theorem chunksGo50_size : ∀ (fuel : ℕ) (s : List Char), s.length ≤ fuel →
    ∀ c ∈ chunksGo fuel s 50, c.length ≤ 50 := by
  intro fuel
  induction fuel with
  | zero =>
    intro s hs c hc
    have h0 : s = [] := List.eq_nil_of_length_eq_zero (Nat.le_zero.mp hs)
    simp [chunksGo, h0] at hc
  | succ n ih =>
    intro s hs c hc
    by_cases h0 : s = []
    · simp [chunksGo, h0] at hc
    · rw [chunksGo, if_neg (by simp [h0])] at hc
      rw [List.mem_cons] at hc
      rcases hc with rfl | hc
      · simp [List.length_take]
      · have hd : (s.drop 50).length ≤ n := by
          rw [List.length_drop]
          have : 0 < s.length := List.length_pos.mpr h0
          omega
        exact ih (s.drop 50) hd c hc

/-- Every chunk but the last has exactly 50 characters. -/
theorem chunksGo50_full : ∀ (fuel : ℕ) (s : List Char), s.length ≤ fuel →
    ∀ (i : ℕ), i + 1 < (chunksGo fuel s 50).length →
      ∀ c, (chunksGo fuel s 50)[i]? = some c → c.length = 50 := by
  intro fuel
  induction fuel with
  | zero =>
    intro s hs i hi
    have h0 : s = [] := List.eq_nil_of_length_eq_zero (Nat.le_zero.mp hs)
    simp [chunksGo, h0] at hi
  | succ n ih =>
    intro s hs i hi c hc
    by_cases h0 : s = []
    · simp [chunksGo, h0] at hi
    · have hlen : 0 < s.length := List.length_pos.mpr h0
      have hd : (s.drop 50).length ≤ n := by
        rw [List.length_drop]; omega
      rw [chunksGo, if_neg (by simp [h0])] at hi hc
      cases i with
      | zero =>
        have hrest := chunksGo50_length n (s.drop 50) hd
        simp only [List.length_cons, List.length_drop] at hi hrest
        have h50 : 50 < s.length := by omega
        simp only [List.getElem?_cons_zero, Option.some.injEq] at hc
        rw [← hc]
        simp [List.length_take]
        omega
      | succ i =>
        simp only [List.length_cons, Nat.add_lt_add_iff_right] at hi
        simp only [List.getElem?_cons_succ] at hc
        exact ih (s.drop 50) hd i hi c hc

/-! ### Claim C6 — `type` action chunking and single screenshot -/

/-- Counting typing invocations over the chunk-command prefix of the trace. -/
theorem countTypeRuns_map (cs : List (List Char)) :
    countTypeRuns (cs.map fun c => CEvent.run (.typeChunk c)) = cs.length := by
  induction cs with
  | nil => rfl
  | cons c rest ih => simpa [countTypeRuns, List.filter] using ih

/-- No screenshot capture occurs among the chunk commands. -/
theorem countCaptures_map (cs : List (List Char)) :
    countCaptures (cs.map fun c => CEvent.run (.typeChunk c)) = 0 := by
  induction cs with
  | nil => rfl
  | cons c rest ih =>
    rw [List.map_cons]
    simp only [countCaptures, List.filter] at ih ⊢
    exact ih

/-- Both counters distribute over trace concatenation. -/
theorem counts_append (a b : List CEvent) :
    countTypeRuns (a ++ b) = countTypeRuns a + countTypeRuns b ∧
    countCaptures (a ++ b) = countCaptures a + countCaptures b := by
  constructor <;> simp [countTypeRuns, countCaptures, List.filter_append]

/-- The screenshot routine performs exactly one capture and no typing. -/
theorem counts_screenshotTrace (g : Geometry) :
    countTypeRuns (screenshotTrace g) = 0 ∧ countCaptures (screenshotTrace g) = 1 := by
  constructor <;>
    simp [screenshotTrace, scalingEnabled, countTypeRuns, countCaptures, List.filter]

/-- C6: the `type` action splits its text into `⌈L/50⌉` chunks — each at most
50 characters, all but the last exactly 50, concatenating back to the text in
order — submits one typing shell invocation per chunk with no intermediate
screenshot, performs exactly one screenshot capture after all chunks, and
attaches that screenshot to the aggregated result. -/
theorem type_action_chunking (g : Geometry) (env : CEnv) (t : List Char)
    (h : env.screenshotExists = true) :
    (computerCall g env "type" (some t) none).2 =
      (chunks t TYPING_GROUP_SIZE).map (fun c => CEvent.run (.typeChunk c)) ++
        screenshotTrace g ∧
    (chunks t TYPING_GROUP_SIZE).length = (t.length + 49) / 50 ∧
    (∀ c ∈ chunks t TYPING_GROUP_SIZE, c.length ≤ 50) ∧
    (∀ (i : ℕ), i + 1 < (chunks t TYPING_GROUP_SIZE).length →
      ∀ c, (chunks t TYPING_GROUP_SIZE)[i]? = some c → c.length = 50) ∧
    (chunks t TYPING_GROUP_SIZE).flatten = t ∧
    countTypeRuns (computerCall g env "type" (some t) none).2 = (t.length + 49) / 50 ∧
    countCaptures (computerCall g env "type" (some t) none).2 = 1 ∧
    ∃ r, (computerCall g env "type" (some t) none).1 = .ok r ∧
      r.image_bytes = some env.image := by
  have hcall : computerCall g env "type" (some t) none = typeRun g env t := rfl
  have hshot : screenshotRun g env =
      (.ok ⟨some (env.stdout .screencapture), some (env.stderr .screencapture),
        some env.image⟩, screenshotTrace g) := by
    simp [screenshotRun, h]
  have htr : (computerCall g env "type" (some t) none).2 =
      (chunks t TYPING_GROUP_SIZE).map (fun c => CEvent.run (.typeChunk c)) ++
        screenshotTrace g := by
    rw [hcall]
    simp [typeRun, hshot]
  have hlen : (chunks t TYPING_GROUP_SIZE).length = (t.length + 49) / 50 :=
    chunksGo50_length t.length t le_rfl
  refine ⟨htr, hlen, ?_, ?_, ?_, ?_, ?_, ?_⟩
  · exact chunksGo50_size t.length t le_rfl
  · exact chunksGo50_full t.length t le_rfl
  · exact chunksGo50_join t.length t le_rfl
  · rw [htr, (counts_append _ _).1, countTypeRuns_map, (counts_screenshotTrace g).1, hlen]
    omega
  · rw [htr, (counts_append _ _).2, countCaptures_map, (counts_screenshotTrace g).2]
  · rw [hcall]
    refine ⟨⟨some (String.join ((chunks t TYPING_GROUP_SIZE).map
        fun c => env.stdout (.typeChunk c))),
      some (String.join ((chunks t TYPING_GROUP_SIZE).map
        fun c => env.stderr (.typeChunk c))),
      some env.image⟩, ?_, rfl⟩
    simp [typeRun, hshot]

/-- Witness for C6: a 120-character string produces exactly 3 typing shell
invocations and exactly one screenshot capture. -/
theorem type_action_chunking_witness :
    countTypeRuns (computerCall gWitness cenvWitness "type"
      (some (List.replicate 120 'a')) none).2 = 3 ∧
    countCaptures (computerCall gWitness cenvWitness "type"
      (some (List.replicate 120 'a')) none).2 = 1 := by
  have h := type_action_chunking gWitness cenvWitness (List.replicate 120 'a') rfl
  constructor
  · rw [h.2.2.2.2.2.1]
    simp
  · exact h.2.2.2.2.2.2.1

/-! ### Claim C7 — `key` with a coordinate is rejected before any shell -/

/-- C7: invoking the automation tool with `action="key"` and any non-`None`
coordinate fails with a `ToolError` validation error and invokes no shell
command at all (the event trace is empty). -/
theorem key_with_coordinate_rejected (g : Geometry) (env : CEnv)
    (text : Option (List Char)) (c : List ℤ) :
    (∃ e, (computerCall g env "key" text (some c)).1 = .error e) ∧
    (computerCall g env "key" text (some c)).2 = [] := by
  cases text with
  | none => exact ⟨⟨⟨"ToolError", "text is required"⟩, rfl⟩, rfl⟩
  | some t => exact ⟨⟨⟨"ToolError", "coordinate is not accepted"⟩, rfl⟩, rfl⟩

/-! ### Claim C10 — `invoke` never raises, but loses results to a `KeyError` -/

/-- C10: the tool's top-level `invoke` converts every exception from the
executed call into a `{"json": {"error": …, "message": …}}` payload, and —
because the result assembly indexes the never-initialized `"json"` key of an
empty dict — every successful call whose result carries a truthy (non-empty)
error or output string is turned into a `KeyError` payload, a constant that
contains neither the textual output, nor the textual error, nor the
screenshot bytes; only a result with falsy output and error survives, as an
image-only dict when the bytes are truthy, or the empty dict when the image
is absent or empty (`if response.image_bytes:` is falsy on `b""`). -/
theorem computer_invoke_error_payloads :
    (∀ e : PyExc, invoke (.error e) = excPayload e) ∧
    (∀ r : ToolResult, truthyStr r.error = true ∨ truthyStr r.output = true →
      invoke (.ok r) = excPayload ⟨"KeyError", "json"⟩ ∧
      ∀ b, invoke (.ok r) ≠ .dict [("image",
        .dict [("format", .str "png"), ("source", .dict [("bytes", .bytes b)])])]) ∧
    (∀ r : ToolResult, truthyStr r.error = false → truthyStr r.output = false →
      truthyBytes r.image_bytes = false → invoke (.ok r) = .dict []) ∧
    (∀ r : ToolResult, truthyStr r.error = false → truthyStr r.output = false →
      truthyBytes r.image_bytes = true →
      invoke (.ok r) = .dict [("image", .dict [("format", .str "png"),
        ("source", .dict [("bytes", .bytes (r.image_bytes.getD []))])])]) := by
  refine ⟨fun e => rfl, fun r hr => ?_, fun r h1 h2 h3 => ?_, fun r h1 h2 h3 => ?_⟩
  · have hkey : invoke (.ok r) = excPayload ⟨"KeyError", "json"⟩ := by
      rcases hr with hr | hr
      · simp [invoke, hr, dictSetNested, List.lookup, Except.bind, Except.map,
          Except.pure, pure, bind, Functor.map]
      · cases he : truthyStr r.error <;>
          simp [invoke, he, hr, dictSetNested, List.lookup, Except.bind, Except.map,
            Except.pure, pure, bind, Functor.map]
    exact ⟨hkey, fun b => by rw [hkey]; simp [excPayload]⟩
  · simp [invoke, h1, h2, h3, Except.bind, Except.map, Except.pure, pure, bind,
      Functor.map]
  · simp [invoke, h1, h2, h3, dictInsert, Except.bind, Except.map, Except.pure, pure,
      bind, Functor.map]

/-- Witness for C10: a successful `type` result with non-empty output and a
captured screenshot is collapsed into the constant `KeyError` payload. -/
theorem computer_invoke_error_payloads_witness :
    invoke (.ok ⟨some "typed", none, some [1, 2]⟩) =
      excPayload ⟨"KeyError", "json"⟩ ∧
    invoke (.error ⟨"ToolError", "text is required"⟩) =
      excPayload ⟨"ToolError", "text is required"⟩ :=
  ⟨(computer_invoke_error_payloads.2.1 ⟨some "typed", none, some [1, 2]⟩
      (Or.inr rfl)).1,
    computer_invoke_error_payloads.1 ⟨"ToolError", "text is required"⟩⟩
